import Mathlib

/-!
Verification development for the terminal video player (src/player.py).

The Python source is shallowly embedded below. Pure helpers become Lean
functions; the two playback while-loops become explicit step functions plus a
structurally recursive loop driver with a fuel argument equal to the frame
count (the index advances by at least one frame per iteration, so that fuel is
always enough; this is proved as part of the termination claim). Rates and
clock readings are modelled as rationals; Python round (half to even) is
modelled exactly by pyRound. External collaborators (VLC audio, PIL resize,
the curses screen) are modelled by their documented contracts, at the
granularity the code relies on.
-/

/- The batteries library marks the arithmetic of Rat irreducible for the
elaborator; the kernel unfolds it regardless.  Restoring the default
reducibility lets decide evaluate the embedded code on concrete inputs. -/
attribute [local semireducible] Rat.add Rat.sub Rat.mul Rat.inv

/-! ### GlyphMapper: chars_gray and the luminance bucket (src/player.py line 38
and lines 409-413 / 572-575 / 637-640) -/

/-- The 11-character shading alphabet, src/player.py line 38. -/
def chars_gray : List Char := ['B', 'S', '#', '&', '@', '$', '%', '*', '!', '.', ' ']

/-- Bucket index computed by the code: `char_idx = int(val // 25)`. -/
def char_idx (val : ℕ) : ℕ := val / 25

/-- Glyph lookup `chars_gray[char_idx]` as performed per pixel by the code. -/
def charFor (val : ℕ) : Char := chars_gray.getD (char_idx val) ' '

/-! ### Python rounding and the ColorQuantizer (src/player.py lines 44-57) -/

/-- Python3 round() on an exact rational: round half to even. -/
def pyRound (q : ℚ) : ℤ :=
  let f : ℤ := ⌊q⌋
  let r : ℚ := q - (f : ℚ)
  if r < 1 / 2 then f
  else if 1 / 2 < r then f + 1
  else if f % 2 = 0 then f else f + 1

/-- xterm_256_index, src/player.py lines 44-57: gray ramp for r=g=b, otherwise
the 6x6x6 cube combined as 16 + 36R + 6G + B. -/
def xterm_256_index (r g b : ℕ) : ℤ :=
  if r = g ∧ g = b then
    let gray_index := pyRound ((r : ℚ) / 255 * 23)
    232 + gray_index
  else
    let Rc := pyRound ((r : ℚ) / 255 * 5)
    let Gc := pyRound ((g : ℚ) / 255 * 5)
    let Bc := pyRound ((b : ℚ) / 255 * 5)
    16 + 36 * Rc + 6 * Gc + Bc

/-! ### ColorPaletteCache: COLOR_PAIR_CACHE and get_color_pair
(src/player.py lines 42-70).  The global dict plus NEXT_COLOR_PAIR_ID become an
explicit state record threaded through calls. -/

/-- The mutable globals COLOR_PAIR_CACHE and NEXT_COLOR_PAIR_ID. -/
structure PairState where
  cache : List ((ℤ × ℤ) × ℕ)
  next_id : ℕ
deriving DecidableEq

/-- Dict lookup `key in COLOR_PAIR_CACHE` / `COLOR_PAIR_CACHE[key]`. -/
def cache_lookup : List ((ℤ × ℤ) × ℕ) → (ℤ × ℤ) → Option ℕ
  | [], _ => none
  | (k, v) :: rest, key => if key = k then some v else cache_lookup rest key

/-- get_color_pair, src/player.py lines 58-70: return the cached pair id for
(fg, bg), or allocate the next id, record it, and bump the counter.  The
curses.init_pair call is an external effect with no bearing on the cache. -/
def get_color_pair (fg_idx bg_idx : ℤ) (st : PairState) : ℕ × PairState :=
  match cache_lookup st.cache (fg_idx, bg_idx) with
  | some pid => (pid, st)
  | none =>
      let pair_id := st.next_id
      (pair_id, ⟨((fg_idx, bg_idx), pair_id) :: st.cache, st.next_id + 1⟩)

/-- The state at session start: empty cache, NEXT_COLOR_PAIR_ID = 1. -/
def session_pair_state : PairState := ⟨[], 1⟩

/-- A sequence of further get_color_pair calls (any callers, any keys). -/
def apply_color_calls : List (ℤ × ℤ) → PairState → PairState
  | [], st => st
  | k :: ks, st => apply_color_calls ks (get_color_pair k.1 k.2 st).2

/-! ### FrameTranscoder: process_frame (src/player.py lines 381-415) -/

/-- A raw decoded image: dimensions plus a pixel map (col, row) to RGB. -/
structure RawImage where
  width : ℕ
  height : ℕ
  pixel : ℕ → ℕ → ℕ × ℕ × ℕ

/-- Modelled from the PIL convert to mode L used at src/player.py line 396:
the ITU-R 601-2 luma transform applied pointwise (external library code). -/
def pil_gray (r g b : ℕ) : ℕ := (299 * r + 587 * g + 114 * b) / 1000

/-- PIL convert to mode L: every channel of a pixel becomes its luminance. -/
def convert_L (im : RawImage) : RawImage :=
  ⟨im.width, im.height, fun c r =>
    let p := im.pixel c r
    let v := pil_gray p.1 p.2.1 p.2.2
    (v, v, v)⟩

/-- Modelled from PIL Image.resize with the NEAREST filter, src/player.py
line 398: the output has exactly the requested dimensions and every output
pixel samples one source pixel (external library code). -/
def resize_nearest (im : RawImage) (w h : ℕ) : RawImage :=
  ⟨w, h, fun c r => im.pixel (c * im.width / w) (r * im.height / h)⟩

/-- One terminal cell: a plain shading character, or a colored block carrying
a curses pair id. -/
inductive Cell where
  | gray (c : Char)
  | colored (c : Char) (pair_id : ℕ)
deriving DecidableEq

/-- The per-pixel body of process_frame (src/player.py lines 404-413):
color mode quantizes the pixel and allocates a pair id for a block character;
grayscale mode picks a shading character from the luminance bucket. -/
def glyph_cell (color_mode : Bool) (im : RawImage) (row col : ℕ) (st : PairState) :
    Cell × PairState :=
  if color_mode then
    let rgb := im.pixel col row
    let color_idx := xterm_256_index rgb.1 rgb.2.1 rgb.2.2
    let pr := get_color_pair color_idx color_idx st
    (Cell.colored '█' pr.1, pr.2)
  else
    let val := (im.pixel col row).1
    (Cell.gray (charFor val), st)

/-- The inner `for col in range(im_pil.width)` loop of process_frame. -/
def build_row_aux (color_mode : Bool) (im : RawImage) (row : ℕ) :
    List ℕ → PairState → List Cell × PairState
  | [], st => ([], st)
  | col :: rest, st =>
      let cst := glyph_cell color_mode im row col st
      let rst := build_row_aux color_mode im row rest cst.2
      (cst.1 :: rst.1, rst.2)

/-- The outer `for row in range(im_pil.height)` loop of process_frame. -/
def build_frame_aux (color_mode : Bool) (im : RawImage) :
    List ℕ → PairState → List (List Cell) × PairState
  | [], st => ([], st)
  | row :: rest, st =>
      let rcells := build_row_aux color_mode im row (List.range im.width) st
      let rst := build_frame_aux color_mode im rest rcells.2
      (rcells.1 :: rst.1, rst.2)

/-- process_frame, src/player.py lines 381-415: take the terminal size, force
the frame to max(1, rows-1) by max(1, cols), convert, and emit the glyph grid.
The grid and the updated pair cache are returned. -/
def process_frame (color_mode : Bool) (term_height term_width : ℕ)
    (frame : RawImage) (st : PairState) : List (List Cell) × PairState :=
  let new_height := max 1 (term_height - 1)
  let new_width := max 1 term_width
  let im0 := if color_mode then frame else convert_L frame
  let im := resize_nearest im0 new_width new_height
  build_frame_aux color_mode im (List.range im.height) st

/-! ### PlaybackScheduler state: skip factor (src/player.py lines 315-319 and
729-733) -/

/-- `effective_fps = User_FPS if User_FPS else Video_FPS` followed by the
`if effective_fps <= 0` fallback.  A missing -f flag is User_FPS = None,
modelled as none; Python treats both None and 0.0 as falsy. -/
def effective_fps (video_fps : ℚ) (user_fps : Option ℚ) : ℚ :=
  let e :=
    match user_fps with
    | none => video_fps
    | some u => if u = 0 then video_fps else u
  if e ≤ 0 then video_fps else e

/-- `skip_factor = max(1, int(round(Video_FPS / effective_fps)))`, computed
once before each playback loop starts. -/
def skip_factor (video_fps : ℚ) (user_fps : Option ℚ) : ℤ :=
  max 1 (pyRound (video_fps / effective_fps video_fps user_fps))

/-- The skip factor as the natural-number stride used on frame indices. -/
def skip_factor_nat (video_fps : ℚ) (user_fps : Option ℚ) : ℕ :=
  (skip_factor video_fps user_fps).toNat

/-- The separate skip factor of the precompute stage, src/player.py lines
438-441 and 531-535: decimate only when a user rate below the video rate was
requested. -/
def load_skip_factor (video_fps : ℚ) (user_fps : Option ℚ) : ℕ :=
  match user_fps with
  | none => 1
  | some u =>
      if 0 < u ∧ u < video_fps then (max 1 (pyRound (video_fps / u))).toNat else 1

/-! ### PlaybackScheduler loops (draw_images, src/player.py lines 720-784, and
draw_images_live, lines 307-380) -/

/-- The loop's environment: the wall-clock reading `time.time() - start_time`
taken at iteration k, and whether the live cap.read() at iteration k
succeeds. -/
structure SchedulerEnv where
  now : ℕ → ℚ
  readOk : ℕ → Bool

/-- What one loop iteration did.  adaptiveSkip is the behind-schedule branch
(no sleep, no render).  readFail is the live variant's failed cap.read()
branch; slept records the time.sleep duration already spent this iteration
(0 means time.sleep was not called).  render carries the slept duration and
the frame index handed to the screen. -/
inductive IterAction where
  | adaptiveSkip (idx : ℕ)
  | readFail (slept : ℚ) (idx : ℕ)
  | render (slept : ℚ) (idx : ℕ)
deriving DecidableEq

/-- The frame index the iteration was entered with. -/
def actionIdx : IterAction → ℕ
  | IterAction.adaptiveSkip i => i
  | IterAction.readFail _ i => i
  | IterAction.render _ i => i

/-- The indices actually handed to the renderer, in order. -/
def renderedIndices (tr : List IterAction) : List ℕ :=
  tr.filterMap fun a =>
    match a with
    | IterAction.render _ i => some i
    | _ => none

/-- One iteration body of draw_images_live (src/player.py lines 328-379):
skip check, then sleep when ahead of schedule, then cap.read, then render.
Every branch ends with `frame_idx += skip_factor`; the next index is returned
alongside the action. -/
def liveIter (fps : ℚ) (ds : Bool) (s : ℕ) (readOk : Bool) (now : ℚ)
    (idx : ℕ) : IterAction × ℕ :=
  let t_ideal : ℚ := (idx : ℚ) / fps
  if ds = false ∧ t_ideal + 1 / 20 < now then
    (IterAction.adaptiveSkip idx, idx + s)
  else
    let slept : ℚ := if now < t_ideal then t_ideal - now else 0
    if readOk = false then (IterAction.readFail slept idx, idx + s)
    else (IterAction.render slept idx, idx + s)

/-- One iteration body of draw_images (src/player.py lines 741-783): identical
to the live body except there is no cap.read step. -/
def drawIter (fps : ℚ) (ds : Bool) (s : ℕ) (now : ℚ) (idx : ℕ) :
    IterAction × ℕ :=
  let t_ideal : ℚ := (idx : ℚ) / fps
  if ds = false ∧ t_ideal + 1 / 20 < now then
    (IterAction.adaptiveSkip idx, idx + s)
  else
    let slept : ℚ := if now < t_ideal then t_ideal - now else 0
    (IterAction.render slept idx, idx + s)

/-- The `while frame_idx < total` driver shared by both loops (the live loop's
`frame_idx <= total_frames - 1` is the same condition on naturals).  fuel
bounds the number of iterations; the entry points pass total, which always
suffices because the index grows by at least 1 per iteration. -/
def sched_loop (step : ℕ → ℕ → IterAction × ℕ) (total : ℕ) :
    ℕ → ℕ → ℕ → List IterAction
  | 0, _, _ => []
  | fuel + 1, k, idx =>
      if idx < total then
        (step k idx).1 :: sched_loop step total fuel (k + 1) (step k idx).2
      else []

/-- The live loop's step at iteration k, reading the clock and the decoder. -/
def live_step (video_fps : ℚ) (user_fps : Option ℚ) (ds : Bool)
    (env : SchedulerEnv) : ℕ → ℕ → IterAction × ℕ :=
  fun k idx =>
    liveIter video_fps ds (skip_factor_nat video_fps user_fps)
      (env.readOk k) (env.now k) idx

/-- The precomputed loop's step at iteration k. -/
def draw_step (video_fps : ℚ) (user_fps : Option ℚ) (ds : Bool)
    (env : SchedulerEnv) : ℕ → ℕ → IterAction × ℕ :=
  fun k idx => drawIter video_fps ds (skip_factor_nat video_fps user_fps) (env.now k) idx

/-- draw_images_live (src/player.py lines 307-380), projected to its iteration
trace: start at frame 0 and loop while the index is below total_frames. -/
def draw_images_live_run (video_fps : ℚ) (user_fps : Option ℚ) (ds : Bool)
    (total : ℕ) (env : SchedulerEnv) : List IterAction :=
  sched_loop (live_step video_fps user_fps ds env) total total 0 0

/-- draw_images (src/player.py lines 720-784), projected to its iteration
trace over the framesAmount entries of ascii_frames. -/
def draw_images_run (video_fps : ℚ) (user_fps : Option ℚ) (ds : Bool)
    (total : ℕ) (env : SchedulerEnv) : List IterAction :=
  sched_loop (draw_step video_fps user_fps ds env) total total 0 0

/-! ### In-memory precompute stage (src/player.py lines 509-589) -/

/-- The read/grab loop of load_resize_precompute_in_memory for a source whose
frames 0..video_frames-1 all decode: keep the frame at the current position,
then grab skip-1 frames, until reads fail at the end of the stream.  Returns
the source indices of the kept frames, in order. -/
def load_kept (video_frames s : ℕ) : ℕ → ℕ → List ℕ
  | 0, _ => []
  | fuel + 1, i =>
      if i < video_frames then i :: load_kept video_frames s fuel (i + s) else []

/-- load_resize_precompute_in_memory, projected to the source indices of the
frames it stores in ascii_frames; its result total_frames is the length of
this list (kept_count in the code). -/
def load_resize_precompute_in_memory (video_fps : ℚ) (user_fps : Option ℚ)
    (video_frames : ℕ) : List ℕ :=
  load_kept video_frames (load_skip_factor video_fps user_fps) video_frames 0

/-- The In-Memory pipeline end to end: precompute ascii_frames, run
draw_images over kept_count of them, and report, for every rendered
ascii_frames position, the source index of the frame actually shown. -/
def in_memory_rendered_source (video_fps : ℚ) (user_fps : Option ℚ) (ds : Bool)
    (video_frames : ℕ) (env : SchedulerEnv) : List ℕ :=
  let ascii_src := load_resize_precompute_in_memory video_fps user_fps video_frames
  (renderedIndices (draw_images_run video_fps user_fps ds ascii_src.length env)).map
    (fun j => ascii_src.getD j 0)

/-- A clock that is never behind schedule (reads 0 forever) with a decoder
that always succeeds. -/
def on_time_env : SchedulerEnv := ⟨fun _ => 0, fun _ => true⟩

/-- A clock that is never behind schedule with a decoder that always fails. -/
def all_fail_env : SchedulerEnv := ⟨fun _ => 0, fun _ => false⟩

/-! ### Audio transport sessions (src/player.py lines 175-183, 267-276,
847-855).  VLC media players are modelled by allocation order: each
media_player_new call returns a fresh session id. -/

/-- The VLC allocator: the only state is the next fresh session id. -/
structure AudioState where
  next_id : ℕ
deriving DecidableEq

/-- Commands issued to the audio transport, tagged with the session. -/
inductive AudioEvent where
  | play (session : ℕ)
  | stop (session : ℕ)
deriving DecidableEq

/-- instance.media_player_new(): allocate a fresh player session. -/
def media_player_new (st : AudioState) : ℕ × AudioState :=
  (st.next_id, ⟨st.next_id + 1⟩)

/-- get_vlc_player, src/player.py lines 175-183: create the player used for
this playback session. -/
def get_vlc_player (st : AudioState) : ℕ × AudioState :=
  media_player_new st

/-- stop_audio_and_curses, src/player.py lines 847-855: after restoring the
terminal it runs `vlc.Instance().media_player_new().stop()` — it creates a
brand-new media player and issues stop on that fresh session. -/
def stop_audio_and_curses (st : AudioState) : AudioEvent × AudioState :=
  let q := media_player_new st
  (AudioEvent.stop q.1, q.2)

/-- Audio events on main's normal-completion path: get_vlc_player allocates
the session, draw_images / draw_images_live call player.play() on it, and at
loop end call player.stop() on the same object. -/
def main_normal_audio : List AudioEvent :=
  let p := get_vlc_player ⟨0⟩
  [AudioEvent.play p.1, AudioEvent.stop p.1]

/-- Audio events when a KeyboardInterrupt arrives during playback
(src/player.py lines 267-271): play() was issued on the session from
get_vlc_player, then the handler runs stop_audio_and_curses and exits. -/
def main_interrupt_audio : List AudioEvent :=
  let p := get_vlc_player ⟨0⟩
  let e := stop_audio_and_curses p.2
  [AudioEvent.play p.1, e.1]

/-! ### Helper lemmas about the loop driver -/

/-- The project of an action to the index rendered by it, if any. -/
def renderIdx : IterAction → Option ℕ
  | IterAction.render _ i => some i
  | _ => none

/-- Once the index has reached total, the loop body never runs. -/
theorem sched_loop_stop (step : ℕ → ℕ → IterAction × ℕ) (total : ℕ) :
    ∀ (fuel k idx : ℕ), total ≤ idx → sched_loop step total fuel k idx = [] := by
  intro fuel k idx h
  cases fuel with
  | zero => rfl
  | succ fuel => simp [sched_loop, Nat.not_lt.mpr h]

/-- Every branch of the live iteration advances the index by the stride. -/
theorem liveIter_snd (fps : ℚ) (ds : Bool) (s : ℕ) (ok : Bool) (now : ℚ) (idx : ℕ) :
    (liveIter fps ds s ok now idx).2 = idx + s := by
  simp only [liveIter]
  split_ifs <;> rfl

/-- Every branch of the precomputed iteration advances the index by the stride. -/
theorem drawIter_snd (fps : ℚ) (ds : Bool) (s : ℕ) (now : ℚ) (idx : ℕ) :
    (drawIter fps ds s now idx).2 = idx + s := by
  simp only [drawIter]
  split_ifs <;> rfl

/-- The live iteration's action carries the index it was entered with. -/
theorem liveIter_fst_idx (fps : ℚ) (ds : Bool) (s : ℕ) (ok : Bool) (now : ℚ) (idx : ℕ) :
    actionIdx (liveIter fps ds s ok now idx).1 = idx := by
  simp only [liveIter]
  split_ifs <;> rfl

/-- The precomputed iteration's action carries the index it was entered with. -/
theorem drawIter_fst_idx (fps : ℚ) (ds : Bool) (s : ℕ) (now : ℚ) (idx : ℕ) :
    actionIdx (drawIter fps ds s now idx).1 = idx := by
  simp only [drawIter]
  split_ifs <;> rfl

/-- The loop makes exactly one iteration per stride step left before total. -/
theorem sched_loop_length (step : ℕ → ℕ → IterAction × ℕ) (total s : ℕ)
    (hstep : ∀ k idx, (step k idx).2 = idx + s) (hs : 0 < s) :
    ∀ (fuel k idx : ℕ), total ≤ idx + fuel →
      (sched_loop step total fuel k idx).length = (total - idx + s - 1) / s := by
  intro fuel
  induction fuel with
  | zero =>
      intro k idx h
      have h0 : total - idx = 0 := by omega
      simp [sched_loop, h0, Nat.div_eq_of_lt (show s - 1 < s by omega)]
  | succ fuel ih =>
      intro k idx h
      by_cases hidx : idx < total
      · rw [show sched_loop step total (fuel + 1) k idx
              = (step k idx).1 :: sched_loop step total fuel (k + 1) (step k idx).2 from
            by simp [sched_loop, hidx]]
        rw [List.length_cons, hstep, ih (k + 1) (idx + s) (by omega)]
        have h1 : total - idx + s - 1 = total - idx - 1 + s := by omega
        rw [h1, Nat.add_div_right _ hs]
        by_cases hds : s ≤ total - idx
        · have h2 : total - (idx + s) + s - 1 = total - idx - 1 := by omega
          rw [h2]
        · have h2 : total - (idx + s) = 0 := by omega
          rw [h2]
          rw [Nat.div_eq_of_lt (show 0 + s - 1 < s by omega),
              Nat.div_eq_of_lt (show total - idx - 1 < s by omega)]
      · rw [sched_loop_stop step total (fuel + 1) k idx (by omega)]
        have h0 : total - idx = 0 := by omega
        simp [h0, Nat.div_eq_of_lt (show s - 1 < s by omega)]

/-- Extra fuel beyond the remaining distance does not change the trace: the
loop genuinely exits by reaching total, not by running out of fuel. -/
theorem sched_loop_fuel_add (step : ℕ → ℕ → IterAction × ℕ) (total s : ℕ)
    (hstep : ∀ k idx, (step k idx).2 = idx + s) (hs : 0 < s) :
    ∀ (fuel m k idx : ℕ), total ≤ idx + fuel →
      sched_loop step total (fuel + m) k idx = sched_loop step total fuel k idx := by
  intro fuel
  induction fuel with
  | zero =>
      intro m k idx h
      rw [sched_loop_stop step total (0 + m) k idx (by omega),
          sched_loop_stop step total 0 k idx (by omega)]
  | succ fuel ih =>
      intro m k idx h
      by_cases hidx : idx < total
      · have e : fuel + 1 + m = fuel + m + 1 := by omega
        rw [e]
        simp only [sched_loop, if_pos hidx]
        rw [hstep, ih m (k + 1) (idx + s) (by omega)]
      · rw [sched_loop_stop step total (fuel + 1 + m) k idx (by omega),
            sched_loop_stop step total (fuel + 1) k idx (by omega)]

/-- The visited indices form the arithmetic progression idx, idx+s, idx+2s,
...: every iteration, whatever its branch, uses the same stride. -/
theorem sched_loop_map_idx (step : ℕ → ℕ → IterAction × ℕ) (total s : ℕ)
    (hstep : ∀ k idx, (step k idx).2 = idx + s)
    (hact : ∀ k idx, actionIdx (step k idx).1 = idx) :
    ∀ (fuel k idx : ℕ),
      (sched_loop step total fuel k idx).map actionIdx
        = (List.range (sched_loop step total fuel k idx).length).map
            (fun p => idx + p * s) := by
  intro fuel
  induction fuel with
  | zero => intro k idx; rfl
  | succ fuel ih =>
      intro k idx
      by_cases hidx : idx < total
      · simp only [sched_loop, if_pos hidx, List.map_cons, List.length_cons]
        rw [hstep, hact, ih (k + 1) (idx + s)]
        rw [List.range_succ_eq_map, List.map_cons, List.map_map]
        have hf : ((fun p => idx + p * s) ∘ Nat.succ) = fun p => idx + s + p * s := by
          funext p
          simp only [Function.comp_apply, Nat.succ_mul, Nat.succ_eq_add_one]
          ring
        rw [hf]
        simp
      · simp [sched_loop, hidx]

/-- Every index rendered from a loop suffix is at least the entry index. -/
theorem sched_loop_rendered_ge (step : ℕ → ℕ → IterAction × ℕ) (total s : ℕ)
    (hstep : ∀ k idx, (step k idx).2 = idx + s)
    (hact : ∀ k idx, actionIdx (step k idx).1 = idx) :
    ∀ (fuel k idx i : ℕ),
      i ∈ (sched_loop step total fuel k idx).filterMap renderIdx → idx ≤ i := by
  intro fuel
  induction fuel with
  | zero =>
      intro k idx i h
      simp [sched_loop] at h
  | succ fuel ih =>
      intro k idx i h
      by_cases hidx : idx < total
      · rw [show sched_loop step total (fuel + 1) k idx
              = (step k idx).1 :: sched_loop step total fuel (k + 1) (step k idx).2 from
            by simp [sched_loop, hidx]] at h
        rw [hstep] at h
        have hh := hact k idx
        cases hc : (step k idx).1 with
        | adaptiveSkip j =>
            rw [hc] at h
            simp only [List.filterMap_cons, renderIdx] at h
            have := ih (k + 1) (idx + s) i h
            omega
        | readFail w j =>
            rw [hc] at h
            simp only [List.filterMap_cons, renderIdx] at h
            have := ih (k + 1) (idx + s) i h
            omega
        | render w j =>
            rw [hc] at h
            rw [hc] at hh
            simp only [actionIdx] at hh
            simp only [List.filterMap_cons, renderIdx, List.mem_cons] at h
            cases h with
            | inl h => omega
            | inr h =>
                have := ih (k + 1) (idx + s) i h
                omega
      · rw [sched_loop_stop step total (fuel + 1) k idx (by omega)] at h
        simp at h

/-- The rendered indices of any loop run are strictly increasing. -/
theorem sched_loop_rendered_sorted (step : ℕ → ℕ → IterAction × ℕ) (total s : ℕ)
    (hstep : ∀ k idx, (step k idx).2 = idx + s)
    (hact : ∀ k idx, actionIdx (step k idx).1 = idx) (hs : 0 < s) :
    ∀ (fuel k idx : ℕ),
      List.Pairwise (fun a b => a < b)
        ((sched_loop step total fuel k idx).filterMap renderIdx) := by
  intro fuel
  induction fuel with
  | zero => intro k idx; simp [sched_loop]
  | succ fuel ih =>
      intro k idx
      by_cases hidx : idx < total
      · rw [show sched_loop step total (fuel + 1) k idx
              = (step k idx).1 :: sched_loop step total fuel (k + 1) (step k idx).2 from
            by simp [sched_loop, hidx]]
        rw [hstep]
        have hh := hact k idx
        cases hc : (step k idx).1 with
        | adaptiveSkip j =>
            simp only [List.filterMap_cons, renderIdx]
            exact ih (k + 1) (idx + s)
        | readFail w j =>
            simp only [List.filterMap_cons, renderIdx]
            exact ih (k + 1) (idx + s)
        | render w j =>
            rw [hc] at hh
            simp only [actionIdx] at hh
            simp only [List.filterMap_cons, renderIdx, List.pairwise_cons]
            constructor
            · intro b hb
              have := sched_loop_rendered_ge step total s hstep hact fuel (k + 1) (idx + s) b hb
              omega
            · exact ih (k + 1) (idx + s)
      · rw [sched_loop_stop step total (fuel + 1) k idx (by omega)]
        simp

/-- renderedIndices is the filterMap of the render projection. -/
theorem renderedIndices_eq_filterMap (tr : List IterAction) :
    renderedIndices tr = tr.filterMap renderIdx := by
  unfold renderedIndices renderIdx
  rfl

/-- The playback stride is positive. -/
theorem skip_factor_nat_pos (video_fps : ℚ) (user_fps : Option ℚ) :
    0 < skip_factor_nat video_fps user_fps := by
  unfold skip_factor_nat skip_factor
  have h : (1 : ℤ) ≤ max 1 (pyRound (video_fps / effective_fps video_fps user_fps)) :=
    le_max_left _ _
  omega

/-- With no -f flag and a positive video rate, the effective rate is the
video rate. -/
theorem effective_fps_none (video_fps : ℚ) (h : 0 < video_fps) :
    effective_fps video_fps none = video_fps := by
  simp only [effective_fps]
  rw [if_neg (not_le.mpr h)]

/-- A requested rate that is zero or negative falls back to the video rate. -/
theorem effective_fps_nonpos (video_fps u : ℚ) (hu : u ≤ 0) :
    effective_fps video_fps (some u) = video_fps := by
  simp only [effective_fps]
  by_cases h0 : u = 0
  · simp [h0]
  · rw [if_neg h0, if_pos hu]

/-- A positive requested rate is used as is. -/
theorem effective_fps_pos_user (video_fps u : ℚ) (hu : 0 < u) :
    effective_fps video_fps (some u) = u := by
  simp only [effective_fps]
  rw [if_neg (ne_of_gt hu), if_neg (not_le.mpr hu)]

/-- Python round of 1 is 1. -/
theorem pyRound_one : pyRound 1 = 1 := by decide

/-- Claim C4: for every session, skipFactor equals
max(1, round(sourceFrameRate / requestedDisplayFrameRate)); in particular
sourceFrameRate 30 with requested rate 10 yields 3, and an absent or
nonpositive requested rate falls back to the source rate giving 1.  The last
two conjuncts show the stride is a session constant: every iteration of either
playback loop, adaptive-skip iterations included, advances the index by that
same skipFactor, so the visited indices are 0, s, 2s, .... -/
theorem c4_skip_factor_formula :
    skip_factor_nat 30 (some 10) = 3
  ∧ (∀ video_fps : ℚ, 0 < video_fps → skip_factor_nat video_fps none = 1)
  ∧ (∀ video_fps u : ℚ, 0 < video_fps → u ≤ 0 →
       skip_factor_nat video_fps (some u) = 1)
  ∧ (∀ video_fps u : ℚ, 0 < u →
       skip_factor video_fps (some u) = max 1 (pyRound (video_fps / u)))
  ∧ (∀ (video_fps : ℚ) (user_fps : Option ℚ) (ds : Bool) (total : ℕ)
       (env : SchedulerEnv),
       (draw_images_run video_fps user_fps ds total env).map actionIdx
         = (List.range (draw_images_run video_fps user_fps ds total env).length).map
             (fun p => p * skip_factor_nat video_fps user_fps))
  ∧ (∀ (video_fps : ℚ) (user_fps : Option ℚ) (ds : Bool) (total : ℕ)
       (env : SchedulerEnv),
       (draw_images_live_run video_fps user_fps ds total env).map actionIdx
         = (List.range (draw_images_live_run video_fps user_fps ds total env).length).map
             (fun p => p * skip_factor_nat video_fps user_fps)) := by
  refine ⟨by decide, ?_, ?_, ?_, ?_, ?_⟩
  · intro vf h
    unfold skip_factor_nat skip_factor
    rw [effective_fps_none vf h, div_self (ne_of_gt h), pyRound_one]
    decide
  · intro vf u hvf hu
    unfold skip_factor_nat skip_factor
    rw [effective_fps_nonpos vf u hu, div_self (ne_of_gt hvf), pyRound_one]
    decide
  · intro vf u hu
    unfold skip_factor
    rw [effective_fps_pos_user vf u hu]
  · intro vf uf ds total env
    have h := sched_loop_map_idx (draw_step vf uf ds env) total (skip_factor_nat vf uf)
      (fun k idx => drawIter_snd vf ds (skip_factor_nat vf uf) (env.now k) idx)
      (fun k idx => drawIter_fst_idx vf ds (skip_factor_nat vf uf) (env.now k) idx)
      total 0 0
    simpa [draw_images_run] using h
  · intro vf uf ds total env
    have h := sched_loop_map_idx (live_step vf uf ds env) total (skip_factor_nat vf uf)
      (fun k idx => liveIter_snd vf ds (skip_factor_nat vf uf) (env.readOk k) (env.now k) idx)
      (fun k idx => liveIter_fst_idx vf ds (skip_factor_nat vf uf) (env.readOk k) (env.now k) idx)
      total 0 0
    simpa [draw_images_live_run] using h

/-- Witness for C4 at concrete inputs. -/
theorem c4_skip_factor_formula_witness :
    skip_factor_nat 30 none = 1
  ∧ skip_factor_nat 30 (some (-5)) = 1
  ∧ skip_factor 30 (some 12) = max 1 (pyRound ((30 : ℚ) / 12)) :=
  ⟨c4_skip_factor_formula.2.1 30 (by norm_num),
   c4_skip_factor_formula.2.2.1 30 (-5) (by norm_num) (by norm_num),
   c4_skip_factor_formula.2.2.2.1 30 12 (by norm_num)⟩

/-- Claim C7: in both playback loops the rendered frame indices are strictly
increasing: no index is rendered twice and a lower index never follows a
higher one, because every branch adds the positive skipFactor to the index. -/
theorem c7_rendered_indices_strictly_increasing :
    ∀ (video_fps : ℚ) (user_fps : Option ℚ) (ds : Bool) (total : ℕ)
      (env : SchedulerEnv),
      List.Pairwise (fun a b => a < b)
        (renderedIndices (draw_images_live_run video_fps user_fps ds total env))
    ∧ List.Pairwise (fun a b => a < b)
        (renderedIndices (draw_images_run video_fps user_fps ds total env)) := by
  intro vf uf ds total env
  constructor
  · rw [renderedIndices_eq_filterMap]
    exact sched_loop_rendered_sorted (live_step vf uf ds env) total (skip_factor_nat vf uf)
      (fun k idx => liveIter_snd vf ds (skip_factor_nat vf uf) (env.readOk k) (env.now k) idx)
      (fun k idx => liveIter_fst_idx vf ds (skip_factor_nat vf uf) (env.readOk k) (env.now k) idx)
      (skip_factor_nat_pos vf uf) total 0 0
  · rw [renderedIndices_eq_filterMap]
    exact sched_loop_rendered_sorted (draw_step vf uf ds env) total (skip_factor_nat vf uf)
      (fun k idx => drawIter_snd vf ds (skip_factor_nat vf uf) (env.now k) idx)
      (fun k idx => drawIter_fst_idx vf ds (skip_factor_nat vf uf) (env.now k) idx)
      (skip_factor_nat_pos vf uf) total 0 0

/-- Claim C10: both playback loops terminate, running exactly
ceil(totalFrames / skipFactor) iterations (stated as (total + s - 1) / s in
natural division), because every branch advances the index by the positive
skipFactor.  The last two conjuncts show the exit is genuine: granting the
driver any extra fuel beyond totalFrames changes nothing. -/
theorem c10_loop_iteration_count :
    ∀ (video_fps : ℚ) (user_fps : Option ℚ) (ds : Bool) (total : ℕ)
      (env : SchedulerEnv),
      (draw_images_live_run video_fps user_fps ds total env).length
          = (total + skip_factor_nat video_fps user_fps - 1)
              / skip_factor_nat video_fps user_fps
    ∧ (draw_images_run video_fps user_fps ds total env).length
          = (total + skip_factor_nat video_fps user_fps - 1)
              / skip_factor_nat video_fps user_fps
    ∧ (∀ m : ℕ, sched_loop (live_step video_fps user_fps ds env) total (total + m) 0 0
          = draw_images_live_run video_fps user_fps ds total env)
    ∧ (∀ m : ℕ, sched_loop (draw_step video_fps user_fps ds env) total (total + m) 0 0
          = draw_images_run video_fps user_fps ds total env) := by
  intro vf uf ds total env
  have hs := skip_factor_nat_pos vf uf
  have hl := sched_loop_length (live_step vf uf ds env) total (skip_factor_nat vf uf)
    (fun k idx => liveIter_snd vf ds (skip_factor_nat vf uf) (env.readOk k) (env.now k) idx)
    hs total 0 0 (by omega)
  have hd := sched_loop_length (draw_step vf uf ds env) total (skip_factor_nat vf uf)
    (fun k idx => drawIter_snd vf ds (skip_factor_nat vf uf) (env.now k) idx)
    hs total 0 0 (by omega)
  refine ⟨by simpa [draw_images_live_run] using hl,
          by simpa [draw_images_run] using hd, ?_, ?_⟩
  · intro m
    exact sched_loop_fuel_add (live_step vf uf ds env) total (skip_factor_nat vf uf)
      (fun k idx => liveIter_snd vf ds (skip_factor_nat vf uf) (env.readOk k) (env.now k) idx)
      hs total m 0 0 (by omega)
  · intro m
    exact sched_loop_fuel_add (draw_step vf uf ds env) total (skip_factor_nat vf uf)
      (fun k idx => drawIter_snd vf ds (skip_factor_nat vf uf) (env.now k) idx)
      hs total m 0 0 (by omega)

/-- One cell is emitted per column. -/
theorem build_row_aux_length (color_mode : Bool) (im : RawImage) (row : ℕ) :
    ∀ (cols : List ℕ) (st : PairState),
      ((build_row_aux color_mode im row cols st).1).length = cols.length := by
  intro cols
  induction cols with
  | nil => intro st; rfl
  | cons c rest ih =>
      intro st
      simp [build_row_aux, ih]

/-- One row of exactly the image width is emitted per requested row. -/
theorem build_frame_aux_map_length (color_mode : Bool) (im : RawImage) :
    ∀ (rows : List ℕ) (st : PairState),
      ((build_frame_aux color_mode im rows st).1).map List.length
        = rows.map (fun _ => im.width) := by
  intro rows
  induction rows with
  | nil => intro st; rfl
  | cons r rest ih =>
      intro st
      simp [build_frame_aux, ih, build_row_aux_length]

/-- Mapping a constant over a range gives a replicate. -/
theorem range_map_const (n w : ℕ) :
    (List.range n).map (fun _ => w) = List.replicate n w := by
  induction n with
  | zero => rfl
  | succ n ih => simp [List.range_succ, ih, List.replicate_succ']

/-- Claim C8: for every input image, whatever its resolution and aspect
ratio, process_frame produces a glyph grid of exactly the requested size
(max(1, rows-1) rows of max(1, cols) columns, the grid the code derives from
the terminal size), with no letterboxing: the row count and every row length
are independent of the input dimensions. -/
theorem c8_process_frame_dimensions :
    ∀ (color_mode : Bool) (term_height term_width : ℕ) (frame : RawImage)
      (st : PairState),
      ((process_frame color_mode term_height term_width frame st).1).map List.length
        = List.replicate (max 1 (term_height - 1)) (max 1 term_width) := by
  intro cm th tw frame st
  show ((build_frame_aux cm
      (resize_nearest (if cm then frame else convert_L frame) (max 1 tw) (max 1 (th - 1)))
      (List.range (max 1 (th - 1))) st).1).map List.length = _
  rw [build_frame_aux_map_length]
  exact range_map_const _ _

/-- A cached key survives one get_color_pair call with the same id. -/
theorem cache_lookup_get_preserved (fg bg : ℤ) (st : PairState) (key : ℤ × ℤ)
    (v : ℕ) (h : cache_lookup st.cache key = some v) :
    cache_lookup ((get_color_pair fg bg st).2).cache key = some v := by
  unfold get_color_pair
  cases h2 : cache_lookup st.cache (fg, bg) with
  | some pid => exact h
  | none =>
      simp only [cache_lookup]
      by_cases hk : key = (fg, bg)
      · rw [hk] at h
        rw [h] at h2
        cases h2
      · rw [if_neg hk]
        exact h

/-- A cached key survives any further sequence of get_color_pair calls. -/
theorem cache_lookup_apply_calls :
    ∀ (ks : List (ℤ × ℤ)) (st : PairState) (key : ℤ × ℤ) (v : ℕ),
      cache_lookup st.cache key = some v →
      cache_lookup (apply_color_calls ks st).cache key = some v := by
  intro ks
  induction ks with
  | nil => intro st key v h; exact h
  | cons k rest ih =>
      intro st key v h
      exact ih _ key v (cache_lookup_get_preserved k.1 k.2 st key v h)

/-- After a call for a key, the cache maps that key to the returned id. -/
theorem get_color_pair_lookup_self (fg bg : ℤ) (st : PairState) :
    cache_lookup ((get_color_pair fg bg st).2).cache (fg, bg)
      = some (get_color_pair fg bg st).1 := by
  unfold get_color_pair
  cases h2 : cache_lookup st.cache (fg, bg) with
  | some pid => exact h2
  | none => simp [cache_lookup]

/-- A cache hit returns the cached id. -/
theorem get_color_pair_of_lookup (fg bg : ℤ) (st : PairState) (v : ℕ)
    (h : cache_lookup st.cache (fg, bg) = some v) :
    (get_color_pair fg bg st).1 = v := by
  unfold get_color_pair
  rw [h]

/-- Claim C9: paint-handle allocation is idempotent within a session: after a
get_color_pair call for a key, any later call for the same key — with any
other calls in between — returns the same pair id; and the cache only grows:
an entry once present is never removed or changed by further calls. -/
theorem c9_get_color_pair_idempotent_monotone :
    ∀ (st : PairState) (fg bg : ℤ) (ks : List (ℤ × ℤ)),
      (get_color_pair fg bg
          (apply_color_calls ks (get_color_pair fg bg st).2)).1
        = (get_color_pair fg bg st).1
    ∧ (∀ (key : ℤ × ℤ) (v : ℕ), cache_lookup st.cache key = some v →
        cache_lookup (apply_color_calls ks st).cache key = some v) := by
  intro st fg bg ks
  constructor
  · have h1 := get_color_pair_lookup_self fg bg st
    have h2 := cache_lookup_apply_calls ks _ (fg, bg) _ h1
    exact get_color_pair_of_lookup fg bg _ _ h2
  · intro key v h
    exact cache_lookup_apply_calls ks st key v h

/-- Witness for C9: a concrete session where the same key is requested again
after an unrelated allocation, and a concrete preserved entry. -/
theorem c9_get_color_pair_idempotent_monotone_witness :
    (get_color_pair 16 16
        (apply_color_calls [(17, 17)] (get_color_pair 16 16 session_pair_state).2)).1
      = (get_color_pair 16 16 session_pair_state).1
  ∧ cache_lookup
      (apply_color_calls [(17, 17)] (get_color_pair 16 16 session_pair_state).2).cache
      (16, 16) = some 1 :=
  ⟨(c9_get_color_pair_idempotent_monotone session_pair_state 16 16 [(17, 17)]).1,
   (c9_get_color_pair_idempotent_monotone
      (get_color_pair 16 16 session_pair_state).2 16 16 [(17, 17)]).2
     (16, 16) 1 (by decide)⟩

set_option maxRecDepth 4000 in
/-- Claim C5: every luminance value 0..255 maps to one of the 11 fixed
alphabet characters, the bucket index is monotone in luminance, and values
250 through 255 all land in the last bucket (index 10). -/
theorem c5_charFor_buckets :
    chars_gray.length = 11
  ∧ (∀ v : ℕ, v < 256 → charFor v ∈ chars_gray)
  ∧ (∀ v w : ℕ, v ≤ w → char_idx v ≤ char_idx w)
  ∧ (∀ v : ℕ, 250 ≤ v → v < 256 → char_idx v = 10) := by
  refine ⟨rfl, by decide, ?_, ?_⟩
  · intro v w h
    exact Nat.div_le_div_right h
  · intro v h1 h2
    unfold char_idx
    omega

/-- Witness for C5 at concrete inputs. -/
theorem c5_charFor_buckets_witness :
    charFor 200 ∈ chars_gray ∧ char_idx 100 ≤ char_idx 200 ∧ char_idx 251 = 10 :=
  ⟨c5_charFor_buckets.2.1 200 (by norm_num),
   c5_charFor_buckets.2.2.1 100 200 (by norm_num),
   c5_charFor_buckets.2.2.2 251 (by norm_num) (by norm_num)⟩

set_option maxRecDepth 4000 in
/-- Claim C6: for channels 0..255, the extended-palette quantizer maps gray
inputs into the ramp 232..255, black to 232 and white to 255, and maps every
non-gray input to 16 + 36R + 6G + B with each cube coordinate
round(channel/255*5); on this range Python rounding agrees with mathematical
rounding (no exact halves arise). -/
theorem c6_xterm_256_quantize :
    (∀ r : ℕ, r < 256 → 232 ≤ xterm_256_index r r r ∧ xterm_256_index r r r ≤ 255)
  ∧ xterm_256_index 0 0 0 = 232
  ∧ xterm_256_index 255 255 255 = 255
  ∧ (∀ r g b : ℕ, ¬(r = g ∧ g = b) →
      xterm_256_index r g b
        = 16 + 36 * pyRound ((r : ℚ) / 255 * 5) + 6 * pyRound ((g : ℚ) / 255 * 5)
            + pyRound ((b : ℚ) / 255 * 5))
  ∧ (∀ c : ℕ, c < 256 → pyRound ((c : ℚ) / 255 * 5) = round ((c : ℚ) / 255 * 5)) := by
  refine ⟨by decide, by decide, by decide, ?_, by decide⟩
  intro r g b h
  unfold xterm_256_index
  rw [if_neg h]

/-- Witness for C6 at concrete inputs. -/
theorem c6_xterm_256_quantize_witness :
    232 ≤ xterm_256_index 128 128 128
  ∧ xterm_256_index 10 20 30
      = 16 + 36 * pyRound ((10 : ℚ) / 255 * 5) + 6 * pyRound ((20 : ℚ) / 255 * 5)
          + pyRound ((30 : ℚ) / 255 * 5)
  ∧ pyRound ((77 : ℚ) / 255 * 5) = round ((77 : ℚ) / 255 * 5) :=
  ⟨(c6_xterm_256_quantize.1 128 (by norm_num)).1,
   c6_xterm_256_quantize.2.2.2.1 10 20 30 (by omega),
   c6_xterm_256_quantize.2.2.2.2 77 (by norm_num)⟩

/-- Claim C1 (code evaluation): on normal completion the loop stops the very
session it started with play(); but on a KeyboardInterrupt during playback the
shutdown path allocates a fresh VLC media player (session 1) and stops that
one — the playing session 0 is never sent a stop.  This contradicts the
docstring of stop_audio_and_curses and the cleanup intent of main's handler:
the claim is right and the code is wrong. -/
theorem c1_interrupt_stops_fresh_player_not_playing_session :
    main_normal_audio = [AudioEvent.play 0, AudioEvent.stop 0]
  ∧ main_interrupt_audio = [AudioEvent.play 0, AudioEvent.stop 1]
  ∧ AudioEvent.stop 0 ∉ main_interrupt_audio := by decide

/-- Counterexample to claim C2 as stated: in the live loop with Video_FPS 30,
skip factor 3 and a clock that reads 0, iteration number 1 (frame index 3)
fails its read — and it has already slept 1/10 s, because the wait step runs
before cap.read.  So a read-failure iteration is not sleep-free. -/
theorem c2_read_failure_sleeps_counterexample :
    (draw_images_live_run 30 (some 10) false 90 all_fail_env).get? 1
      = some (IterAction.readFail (1 / 10) 3)
  ∧ ((1 : ℚ) / 10 ≠ 0) := by decide

/-- Claim C2 (amended): in the live loop, an iteration whose read fails
advances the index by skipFactor and renders nothing, exactly like the
adaptive-skip branch; but unlike that branch it runs after the wait step, so
the iteration has already slept idealElapsed - actualElapsed whenever the
clock was ahead of schedule (and slept 0 otherwise). -/
theorem c2_read_failure_advances_without_render (video_fps now : ℚ) (ds : Bool)
    (s idx : ℕ)
    (h : ¬(ds = false ∧ (idx : ℚ) / video_fps + 1 / 20 < now)) :
    liveIter video_fps ds s false now idx
      = (IterAction.readFail
           (if now < (idx : ℚ) / video_fps then (idx : ℚ) / video_fps - now else 0)
           idx,
         idx + s) := by
  simp only [liveIter]
  rw [if_neg h]
  simp

/-- Witness for the amended C2 at a concrete behind-the-read failure: clock
reads 0 at frame index 3, so the iteration sleeps 1/10 s and then skips. -/
theorem c2_read_failure_advances_without_render_witness :
    liveIter 30 false 3 false 0 3 = (IterAction.readFail (1 / 10) 3, 6) := by
  rw [c2_read_failure_advances_without_render 30 0 false 3 3 (by norm_num)]
  norm_num

/-- Claim C3 (code evaluation at the failing input): with sourceFrameRate 30,
totalFrames 90, requested rate 10 and a clock that is never behind, the Live
variant renders exactly the 30 source indices 0, 3, ..., 87 — but the
In-Memory variant does not: the precompute stage already keeps only every
third source frame, and draw_images then strides by skipFactor 3 over the
kept list again, so only 10 frames are rendered and they show source indices
0, 9, ..., 81.  This holds whether or not adaptive skip is disabled. -/
theorem c3_in_memory_double_decimation :
    ∀ ds : Bool,
      renderedIndices (draw_images_live_run 30 (some 10) ds 90 on_time_env)
        = [0, 3, 6, 9, 12, 15, 18, 21, 24, 27, 30, 33, 36, 39, 42, 45, 48, 51,
           54, 57, 60, 63, 66, 69, 72, 75, 78, 81, 84, 87]
    ∧ in_memory_rendered_source 30 (some 10) ds 90 on_time_env
        = [0, 9, 18, 27, 36, 45, 54, 63, 72, 81]
    ∧ in_memory_rendered_source 30 (some 10) ds 90 on_time_env
        ≠ renderedIndices (draw_images_live_run 30 (some 10) ds 90 on_time_env) := by
  intro ds
  cases ds
  · exact by decide
  · exact by decide
